import Mathlib

/-!
Verification of the clcache compiler-cache core against its source
(src/clcache/clcache.py, stats.py, cmdline.py, errors.py).

The Python source is shallowly embedded: pure functions become Lean
functions, the persistent statistics document and the on-disk object
store become explicit state passing, byte strings and their fixed codecs
are modelled as Lean `String`s, and the MD5 digest
(`HashAlgorithm = hashlib.md5`) is abstracted as an arbitrary function
`H : String → String`, since every property below is invariant in the
choice of digest.  Fallible Python code (exceptions) returns
`Option`/`Except`.  Python string comparison (code-point lexicographic)
is modelled through the character list underlying a `String`, which the
kernel can evaluate.
-/

namespace Clcache

/-! ## Manifest data model (clcache.py) -/

/-- ManifestEntry from clcache.py: an entry in a manifest file, a triple of
the include-file paths, the hash of their contents, and the object key. -/
structure ManifestEntry where
  includeFiles : List String
  includesContentHash : String
  objectHash : String
deriving DecidableEq, Repr

/-- MAX_MANIFEST_HASHES from clcache.py line 59.  The source comment reads
"Manifest file will have at most this number of hash lists in it"; the
constant is never referenced again anywhere in the package. -/
def MAX_MANIFEST_HASHES : Nat := 100

/-- Manifest.addEntry from clcache.py: `self._entries.insert(0, entry)`.
The manifest object is identified with its entry list. -/
def addEntry (entries : List ManifestEntry) (entry : ManifestEntry) : List ManifestEntry :=
  entry :: entries

/-- Index computation inside Manifest.touchEntry:
`next((i for i, e in enumerate(self.entries()) if e.objectHash == objectHash), 0)`,
the index of the first entry with the given objectHash, when one exists. -/
def firstIndexWithHash (objectHash : String) : List ManifestEntry → Option Nat
  | [] => none
  | e :: rest =>
    if e.objectHash = objectHash then some 0
    else (firstIndexWithHash objectHash rest).map (· + 1)

/-- Manifest.touchEntry from clcache.py:
`self._entries.insert(0, self._entries.pop(entryIndex))` where `entryIndex`
defaults to 0 when no entry carries the given objectHash.  `list.pop`
raises IndexError exactly when the list is empty, hence the `Option`. -/
def touchEntry (entries : List ManifestEntry) (objectHash : String) :
    Option (List ManifestEntry) :=
  let entryIndex := (firstIndexWithHash objectHash entries).getD 0
  match entries.get? entryIndex with
  | none => none
  | some e => some (e :: entries.eraseIdx entryIndex)

/-! ## Hash helpers and the manifest-entry builder (clcache.py) -/

/-- Python string order: `sorted` compares strings lexicographically by
code point, which is the order on the underlying character lists. -/
def pyStrLe (a b : String) : Prop := a.data ≤ b.data

instance : DecidableRel pyStrLe := fun a b => inferInstanceAs (Decidable (a.data ≤ b.data))

instance : IsTrans String pyStrLe := ⟨fun _ _ _ hab hbc => le_trans hab hbc⟩

instance : IsAntisymm String pyStrLe :=
  ⟨fun a b hab hba => by cases a; cases b; exact congrArg String.mk (le_antisymm hab hba)⟩

instance : IsTotal String pyStrLe := ⟨fun a b => le_total a.data b.data⟩

/-- Evaluation of `sorted(set(xs))` in createManifestEntry: the distinct
elements of `xs` in ascending string order.  Any stable sort of the
duplicate-free list produces exactly this list. -/
def pySortedSet (l : List String) : List String :=
  List.insertionSort pyStrLe l.dedup

/-- ManifestRepository.getIncludesContentHashForHashes from clcache.py:
`HashAlgorithm(','.join(listOfHashes).encode()).hexdigest()`, with the
digest abstracted as `H`. -/
def getIncludesContentHashForHashes (H : String → String) (listOfHashes : List String) : String :=
  H (String.intercalate "," listOfHashes)

/-- CompilerArtifactsRepository.computeKeyDirect from clcache.py:
`getStringHash(manifestHash + includesContentHash)`. -/
def computeKeyDirect (H : String → String) (manifestHash includesContentHash : String) : String :=
  H (manifestHash ++ includesContentHash)

/-- collapseBasedirToPlaceholder from clcache.py, parameterized by the
already-normalized CLCACHE_BASEDIR (`none` when the variable is unset or
empty, which makes the function the identity).  When the basedir is a
prefix of the path, its first occurrence — which, being a prefix, starts
at position 0 — is replaced by the placeholder `?`. -/
def collapseBasedirToPlaceholder (baseDir : Option String) (path : String) : String :=
  match baseDir with
  | none => path
  | some b =>
    if b.data.isPrefixOf path.data then
      "?" ++ String.mk (path.data.drop b.data.length)
    else
      path

/-- createManifestEntry from clcache.py.  `H` abstracts the string digest,
`fileHash` abstracts `getFileHashes` (the content hash of one file, fixed
for the whole invocation by the memoization table), `baseDir` is the
normalized CLCACHE_BASEDIR. -/
def createManifestEntry (H fileHash : String → String) (baseDir : Option String)
    (manifestHash : String) (includePaths : List String) : ManifestEntry :=
  let sortedIncludePaths := pySortedSet includePaths
  let includeHashes := sortedIncludePaths.map fileHash
  let safeIncludes := sortedIncludePaths.map (collapseBasedirToPlaceholder baseDir)
  let includesContentHash := getIncludesContentHashForHashes H includeHashes
  let cachekey := computeKeyDirect H manifestHash includesContentHash
  ⟨safeIncludes, includesContentHash, cachekey⟩

/-- Helper for the spec-side first-appearance order: removes every element
already seen, keeping first occurrences. -/
def firstAppearanceDedupAux (seen : List String) : List String → List String
  | [] => []
  | a :: rest =>
    if a ∈ seen then firstAppearanceDedupAux seen rest
    else a :: firstAppearanceDedupAux (a :: seen) rest

/-- Duplicate-free sublist of `l` in the order of first appearance. -/
def firstAppearanceDedup (l : List String) : List String :=
  firstAppearanceDedupAux [] l

/-- Definition following the spec's words, for comparison with
`createManifestEntry`: the include files "with duplicates removed", listed
"in the order of their first appearance in the input", each with the
basedir prefix collapsed to the placeholder. -/
def specIncludeFilesFirstAppearance (baseDir : Option String) (includePaths : List String) :
    List String :=
  (firstAppearanceDedup includePaths).map (collapseBasedirToPlaceholder baseDir)

/-! ## Object store: CompilerArtifactsSection.setEntry (clcache.py) -/

/-- CompilerArtifacts from clcache.py: namedtuple
`(objectFilePath, stdout, stderr)`; `objectFilePath` may be None. -/
structure CompilerArtifacts where
  objectFilePath : Option String
  stdout : String
  stderr : String
deriving DecidableEq, Repr

/-- Files of one published object-store entry directory: the copied object
(identified by the source path it was copied from), `output.txt`, and
`stderr.txt` which is only written when stderr is non-empty. -/
structure CacheEntryFiles where
  objectFile : Option String
  outputTxt : String
  stderrTxt : Option String
deriving DecidableEq, Repr

/-- Python runtime errors the embedded fragments can raise. -/
inductive PyRuntimeError where
  /-- UnboundLocalError: a local variable is read on a path where it was
  never assigned. -/
  | unboundLocalSize
deriving DecidableEq, Repr

/-- State of one object-store section: the published entry directory per
key, `none` when absent. -/
abbrev Store := String → Option CacheEntryFiles

/-- CompilerArtifactsSection.setEntry from clcache.py.  The temporary
directory is filled (object copied only when `objectFilePath is not None`,
`output.txt` always, `stderr.txt` when stderr is non-empty), then
`os.replace` publishes it, then `return size` executes.  The local `size`
is assigned only inside the `objectFilePath is not None` branch, so the
return raises UnboundLocalError when no object was given — after the
entry has already been published.  `getsize` abstracts
`os.path.getsize` of the copied object file. -/
def setEntry (getsize : String → Nat) (store : Store) (key : String)
    (artifacts : CompilerArtifacts) : Store × Except PyRuntimeError Nat :=
  let size? : Option Nat := artifacts.objectFilePath.map getsize
  let entry : CacheEntryFiles :=
    { objectFile := artifacts.objectFilePath
      outputTxt := artifacts.stdout
      stderrTxt := if artifacts.stderr ≠ "" then some artifacts.stderr else none }
  let store' : Store := fun k => if k = key then some entry else store k
  match size? with
  | some size => (store', .ok size)
  | none => (store', .error .unboundLocalSize)

/-! ## No-direct key computation and failure surfacing
(clcache.py CompilerArtifactsRepository.computeKeyNodirect, processNoDirect,
processSingleSource; errors.py CompilerFailedException) -/

/-- Result of `invokeRealCompiler(..., captureOutput=True,
outputAsString=False, ...)`: return code, raw stdout (the preprocessed
source) and raw stderr, the byte strings modelled as `String`s. -/
structure PpInvokeResult where
  returnCode : Int
  ppStdout : String
  ppStderr : String

/-- CompilerFailedException from errors.py, with `msgOut` defaulting to
the empty string at the raise site in computeKeyNodirect. -/
structure CompilerFailedException where
  exitCode : Int
  msgErr : String
  msgOut : String
deriving DecidableEq, Repr

/-- CompilerFailedException.getReturnTuple from errors.py:
`return self.exitCode, self.msgErr, self.msgOut, False`. -/
def getReturnTuple (e : CompilerFailedException) : Int × String × String × Bool :=
  (e.exitCode, e.msgErr, e.msgOut, false)

/-- Preprocessor command built in computeKeyNodirect:
`["/EP"] + [arg for arg in commandLine if arg not in ("-c", "/c")]`. -/
def ppcmd (commandLine : List String) : List String :=
  "/EP" :: commandLine.filter fun arg => !(arg == "-c" || arg == "/c")

/-- Switch prefixes stripped by
CompilerArtifactsRepository._normalizedCommandLine. -/
def argsToStrip : List String :=
  ["AI", "C", "E", "P", "FI", "u", "X", "FU", "D", "EP", "Fx", "U", "I", "Fo", "MP"]

/-- CompilerArtifactsRepository._normalizedCommandLine from clcache.py:
drops every argument whose first character is `/` or `-` and whose
remainder starts with one of the stripped switch names.  (On an empty
argument the Python `arg[0]` raises IndexError; command lines contain no
empty tokens, and the embedding keeps such a token.) -/
def normalizedCommandLine (cmdline : List String) : List String :=
  cmdline.filter fun arg =>
    !((arg.data.take 1 = ['/'] ∨ arg.data.take 1 = ['-']) &&
      argsToStrip.any fun p => p.data.isPrefixOf (arg.data.drop 1))

/-- CompilerArtifactsRepository.computeKeyNodirect from clcache.py.
`invoke` abstracts `invokeRealCompiler` on the preprocessor command; on a
non-zero return code the function raises
`CompilerFailedException(returnCode, stderr + "\nclcache: preprocessor failed")`,
otherwise it hashes compiler hash, normalized command line and
preprocessed source. -/
def computeKeyNodirect (H : String → String) (compilerHash : String)
    (invoke : List String → PpInvokeResult) (commandLine : List String) :
    Except CompilerFailedException String :=
  let r := invoke (ppcmd commandLine)
  if r.returnCode ≠ 0 then
    .error ⟨r.returnCode, r.ppStderr ++ "\nclcache: preprocessor failed", ""⟩
  else
    .ok (H (compilerHash ++ String.intercalate " " (normalizedCommandLine commandLine) ++
            r.ppStdout))

/-- Per-source invocation in no-direct mode, as run by processSingleSource:
processNoDirect first calls computeKeyNodirect; a CompilerFailedException
raised there propagates to processSingleSource, which returns
`e.getReturnTuple()` leaving the cache untouched.  `rest` abstracts the
remainder of processNoDirect (store probe, hit handling, real compilation
and ensureArtifactsExist), which only runs once a key was computed. -/
def processSingleSourceNodirect (H : String → String) (compilerHash : String)
    (invoke : List String → PpInvokeResult)
    (rest : String → Store → Store × (Int × String × String × Bool))
    (store : Store) (cmdLine : List String) : Store × (Int × String × String × Bool) :=
  match computeKeyNodirect H compilerHash invoke cmdLine with
  | .error e => (store, getReturnTuple e)
  | .ok cachekey => rest cachekey store

/-! ## Statistics (stats.py) -/

/-- Statistics counters and gauges from stats.py, one field per key of the
persistent JSON document. -/
structure Statistics where
  callsWithInvalidArgument : Nat
  callsWithoutSourceFile : Nat
  callsWithMultipleSourceFiles : Nat
  callsWithPch : Nat
  callsForLinking : Nat
  callsForExternalDebugInfo : Nat
  callsForPreprocessing : Nat
  cacheHits : Nat
  cacheMisses : Nat
  evictedMisses : Nat
  headerChangedMisses : Nat
  sourceChangedMisses : Nat
  cacheEntries : Nat
  cacheSize : Int
deriving DecidableEq, Repr

/-- State in which every counter and gauge is zero, as produced by
`Statistics.__enter__` on a fresh stats file. -/
def zeroStatistics : Statistics :=
  ⟨0, 0, 0, 0, 0, 0, 0, 0, 0, 0, 0, 0, 0, 0⟩

/-- Register calls of stats.py, one constructor per `register*` method. -/
inductive StatOp where
  | registerCallWithInvalidArgument
  | registerCallWithoutSourceFile
  | registerCallWithMultipleSourceFiles
  | registerCallWithPch
  | registerCallForLinking
  | registerCallForExternalDebugInfo
  | registerCallForPreprocessing
  | registerCacheHit
  | registerCacheMiss
  | registerEvictedMiss
  | registerHeaderChangedMiss
  | registerSourceChangedMiss
  | registerCacheEntry (size : Int)
deriving DecidableEq, Repr

/-- Effect of one register call, following stats.py: each specific miss
variant first calls `registerCacheMiss` and then increments its own
counter; `registerCacheEntry` bumps the entry gauge and adds the size. -/
def applyOp (s : Statistics) : StatOp → Statistics
  | .registerCallWithInvalidArgument =>
    { s with callsWithInvalidArgument := s.callsWithInvalidArgument + 1 }
  | .registerCallWithoutSourceFile =>
    { s with callsWithoutSourceFile := s.callsWithoutSourceFile + 1 }
  | .registerCallWithMultipleSourceFiles =>
    { s with callsWithMultipleSourceFiles := s.callsWithMultipleSourceFiles + 1 }
  | .registerCallWithPch => { s with callsWithPch := s.callsWithPch + 1 }
  | .registerCallForLinking => { s with callsForLinking := s.callsForLinking + 1 }
  | .registerCallForExternalDebugInfo =>
    { s with callsForExternalDebugInfo := s.callsForExternalDebugInfo + 1 }
  | .registerCallForPreprocessing =>
    { s with callsForPreprocessing := s.callsForPreprocessing + 1 }
  | .registerCacheHit => { s with cacheHits := s.cacheHits + 1 }
  | .registerCacheMiss => { s with cacheMisses := s.cacheMisses + 1 }
  | .registerEvictedMiss =>
    { s with cacheMisses := s.cacheMisses + 1, evictedMisses := s.evictedMisses + 1 }
  | .registerHeaderChangedMiss =>
    { s with cacheMisses := s.cacheMisses + 1,
             headerChangedMisses := s.headerChangedMisses + 1 }
  | .registerSourceChangedMiss =>
    { s with cacheMisses := s.cacheMisses + 1,
             sourceChangedMisses := s.sourceChangedMisses + 1 }
  | .registerCacheEntry size =>
    { s with cacheEntries := s.cacheEntries + 1, cacheSize := s.cacheSize + size }

/-- Sequential application of register calls. -/
def applyOps (ops : List StatOp) (s : Statistics) : Statistics :=
  ops.foldl applyOp s

/-- Number of plain `registerCacheMiss` calls in a sequence. -/
def plainMissCount (ops : List StatOp) : Nat :=
  ops.countP fun op => match op with | .registerCacheMiss => true | _ => false

/-- Number of `registerEvictedMiss` calls in a sequence. -/
def evictedMissOpCount (ops : List StatOp) : Nat :=
  ops.countP fun op => match op with | .registerEvictedMiss => true | _ => false

/-- Number of `registerHeaderChangedMiss` calls in a sequence. -/
def headerMissOpCount (ops : List StatOp) : Nat :=
  ops.countP fun op => match op with | .registerHeaderChangedMiss => true | _ => false

/-- Number of `registerSourceChangedMiss` calls in a sequence. -/
def sourceMissOpCount (ops : List StatOp) : Nat :=
  ops.countP fun op => match op with | .registerSourceChangedMiss => true | _ => false

/-! ## jobCount (cmdline.py) -/

/-- Full match of `^/MP(\d+)?$`: the literal `/MP` followed by digits
only, possibly none. -/
def isMPSwitch (arg : String) : Bool :=
  "/MP".data.isPrefixOf arg.data && (arg.data.drop 3).all Char.isDigit

/-- Value of Python `int` on a non-empty decimal digit string, given as
its character list. -/
def pyIntChars (digits : List Char) : Nat :=
  digits.foldl (fun n c => n * 10 + (c.toNat - '0'.toNat)) 0

/-- jobCount from cmdline.py (duplicated verbatim in clcache.py): filter
the command line through the `/MP` regular expression; no match means 1;
otherwise the last match decides — its digit suffix when present, the
host CPU count (the `cpuCount` parameter) when bare. -/
def jobCount (cpuCount : Nat) (cmdLine : List String) : Nat :=
  let mpSwitches := cmdLine.filter isMPSwitch
  match mpSwitches.getLast? with
  | none => 1
  | some mpSwitch =>
    let count := mpSwitch.data.drop 3
    if count ≠ [] then pyIntChars count else cpuCount

/-- Restatement of the claim's words for jobCount: scan the command line
from the end for the first `/MP` switch; none means 1; a bare `/MP` means
the host CPU count; `/MP<digits>` means the integer after `/MP`. -/
def specJobCount (cpuCount : Nat) (cmdLine : List String) : Nat :=
  match cmdLine.reverse.find? isMPSwitch with
  | none => 1
  | some s => if s = "/MP" then cpuCount else pyIntChars (s.data.drop 3)

/-! ## Object-store eviction (clcache.py CompilerArtifactsRepository.clean) -/

/-- Enumerated object-store entry: the access time and size from
`os.stat` of the cached object file, and the cache key. -/
structure ObjectInfo where
  atime : Int
  size : Int
  key : String
deriving DecidableEq, Repr

/-- Eviction loop of CompilerArtifactsRepository.clean: remove the next
entry, count it, subtract its size, and only then test the budget. -/
def cleanLoop (maxCompilerArtifactsSize : Int) :
    List ObjectInfo → Int → Nat → Nat × Int
  | [], currentSizeObjects, removedItems => (removedItems, currentSizeObjects)
  | info :: rest, currentSizeObjects, removedItems =>
    let currentSize' := currentSizeObjects - info.size
    if currentSize' < maxCompilerArtifactsSize then (removedItems + 1, currentSize')
    else cleanLoop maxCompilerArtifactsSize rest currentSize' (removedItems + 1)

/-- CompilerArtifactsRepository.clean from clcache.py: sort the enumerated
entries by ascending access time (Python's stable sort), sum their sizes,
run the eviction loop, and return the remaining count and size. -/
def clean (maxCompilerArtifactsSize : Int) (objectInfos : List ObjectInfo) : Nat × Int :=
  let sortedInfos := List.insertionSort (fun a b => a.atime ≤ b.atime) objectInfos
  let currentSizeObjects := (sortedInfos.map (fun x => x.size)).sum
  let r := cleanLoop maxCompilerArtifactsSize sortedInfos currentSizeObjects 0
  (objectInfos.length - r.1, r.2)

end Clcache

namespace Clcache

/-! ## Claim C1 -/

/-- C1: refuted on the code.  For artifacts whose objectFilePath is null,
setEntry publishes the entry (stdout stored, empty stderr omitted, no
object file) but then raises UnboundLocalError instead of returning the
bytes written, because the local `size` is only assigned when an object
file is present.  This theorem evaluates the embedded setEntry at the
failing input `setEntry("k", CompilerArtifacts(None, "warning: x", ""))`. -/
theorem setEntry_nullObject_raises :
    (setEntry (fun _ => 0) (fun _ => none) "k"
        ⟨none, "warning: x", ""⟩).2 = Except.error PyRuntimeError.unboundLocalSize ∧
    (setEntry (fun _ => 0) (fun _ => none) "k"
        ⟨none, "warning: x", ""⟩).1 "k" = some ⟨none, "warning: x", none⟩ := by
  constructor <;> rfl

/-! ## Claim C2 -/

/-- Concrete manifest holding 100 pairwise distinct entries. -/
def manifest100 : List ManifestEntry :=
  (List.range 100).map fun i => ⟨[], "", String.mk (List.replicate i 'a')⟩

/-- Distinct 101st entry. -/
def entry101 : ManifestEntry := ⟨[], "", "x"⟩

/-- C2: refuted on the code.  Manifest.addEntry inserts unconditionally and
MAX_MANIFEST_HASHES is referenced nowhere, so inserting a 101st distinct
entry into a 100-entry manifest yields 101 entries; no entry is dropped. -/
theorem addEntry_exceeds_MAX_MANIFEST_HASHES :
    manifest100.length = MAX_MANIFEST_HASHES ∧
    manifest100.Nodup ∧
    entry101 ∉ manifest100 ∧
    (addEntry manifest100 entry101).length = MAX_MANIFEST_HASHES + 1 ∧
    entry101 ∈ addEntry manifest100 entry101 := by
  have hinj : Function.Injective
      (fun i => (⟨[], "", String.mk (List.replicate i 'a')⟩ : ManifestEntry)) := by
    intro a b hab
    have hstr : String.mk (List.replicate a 'a') = String.mk (List.replicate b 'a') :=
      congrArg ManifestEntry.objectHash hab
    have hdata : List.replicate a 'a' = List.replicate b 'a' := congrArg String.data hstr
    simpa using congrArg List.length hdata
  refine ⟨by simp [manifest100, MAX_MANIFEST_HASHES], ?_, ?_, ?_, by simp [addEntry]⟩
  · exact (List.nodup_range 100).map hinj
  · intro hmem
    simp only [manifest100, List.mem_map] at hmem
    obtain ⟨i, -, hi⟩ := hmem
    have hstr : String.mk (List.replicate i 'a') = "x" := congrArg ManifestEntry.objectHash hi
    have hdata : List.replicate i 'a' = ['x'] := congrArg String.data hstr
    have hlen : i = 1 := by simpa using congrArg List.length hdata
    subst hlen
    simp at hdata
  · simp [addEntry, manifest100, MAX_MANIFEST_HASHES]

/-! ## Claim C3 -/

/-- Manifest entry used in duplicate-hash counterexamples. -/
def dupEntryA : ManifestEntry := ⟨["a.h"], "c1", "k1"⟩

/-- Second manifest entry carrying the same objectHash as `dupEntryA`. -/
def dupEntryB : ManifestEntry := ⟨["b.h"], "c2", "k1"⟩

/-- C3 counterexample: adding an entry whose objectHash already appears in
the manifest does not move the existing entry; it prepends a duplicate,
and the manifest length grows from 1 to 2. -/
theorem addEntry_duplicate_hash_grows :
    dupEntryB.objectHash = dupEntryA.objectHash ∧
    dupEntryB ≠ dupEntryA ∧
    addEntry [dupEntryA] dupEntryB = [dupEntryB, dupEntryA] ∧
    (addEntry [dupEntryA] dupEntryB).length = 2 := by
  exact ⟨rfl, by decide, rfl, rfl⟩

/-- C3 amended: Manifest.addEntry always prepends the new entry at
position 0 and the manifest length always grows by one; no deduplication
of objectHash values takes place. -/
theorem addEntry_always_prepends (entries : List ManifestEntry) (entry : ManifestEntry) :
    (addEntry entries entry).head? = some entry ∧
    (addEntry entries entry).length = entries.length + 1 :=
  ⟨rfl, rfl⟩

end Clcache

namespace Clcache

/-! ## Claim C4 -/

/-- Lists with the same element set (in particular permutations of each
other, or lists differing only by duplicated elements) have the same
`sorted(set(...))` evaluation. -/
theorem pySortedSet_eq_of_dedup_perm (l1 l2 : List String) (h : l1.dedup.Perm l2.dedup) :
    pySortedSet l1 = pySortedSet l2 := by
  have hperm : (List.insertionSort pyStrLe l1.dedup).Perm (List.insertionSort pyStrLe l2.dedup) :=
    (List.perm_insertionSort pyStrLe l1.dedup).trans
      (h.trans (List.perm_insertionSort pyStrLe l2.dedup).symm)
  exact List.eq_of_perm_of_sorted hperm
    (List.sorted_insertionSort pyStrLe l1.dedup)
    (List.sorted_insertionSort pyStrLe l2.dedup)

/-- C4: two include-path lists with the same distinct paths — permutations
of each other, or differing only by duplicated elements, both of which
make their duplicate-free sublists permutations of each other — yield the
same includesContentHash and the same objectHash from createManifestEntry
under the same manifestHash and the same per-file content hashes. -/
theorem createManifestEntry_includeSet_invariant (H fileHash : String → String)
    (baseDir : Option String) (manifestHash : String) (l1 l2 : List String)
    (h : l1.dedup.Perm l2.dedup) :
    (createManifestEntry H fileHash baseDir manifestHash l1).includesContentHash
      = (createManifestEntry H fileHash baseDir manifestHash l2).includesContentHash ∧
    (createManifestEntry H fileHash baseDir manifestHash l1).objectHash
      = (createManifestEntry H fileHash baseDir manifestHash l2).objectHash := by
  have hs := pySortedSet_eq_of_dedup_perm l1 l2 h
  constructor <;> simp [createManifestEntry, hs]

/-- C4 witness: the list `["b", "a", "a"]` (a permutation of `["a", "b"]`
with one element duplicated) produces the same hashes as `["a", "b"]`. -/
theorem createManifestEntry_includeSet_invariant_witness :
    (["b", "a", "a"] : List String).dedup.Perm (["a", "b"] : List String).dedup ∧
    ((createManifestEntry (fun s => "H" ++ s) (fun s => "F" ++ s) none "m"
        ["b", "a", "a"]).includesContentHash
      = (createManifestEntry (fun s => "H" ++ s) (fun s => "F" ++ s) none "m"
          ["a", "b"]).includesContentHash ∧
     (createManifestEntry (fun s => "H" ++ s) (fun s => "F" ++ s) none "m"
        ["b", "a", "a"]).objectHash
      = (createManifestEntry (fun s => "H" ++ s) (fun s => "F" ++ s) none "m"
          ["a", "b"]).objectHash) := by
  have hperm : (["b", "a", "a"] : List String).dedup.Perm (["a", "b"] : List String).dedup :=
    List.Perm.swap "a" "b" []
  exact ⟨hperm, createManifestEntry_includeSet_invariant _ _ _ _ _ _ hperm⟩

/-! ## Claim C5 -/

/-- C5 counterexample: for the input `["b", "a"]` the stored includeFiles
list is the sorted list `["a", "b"]`, not the first-appearance-order list
`["b", "a"]` demanded by the claim. -/
theorem createManifestEntry_includeFiles_not_firstAppearance :
    (createManifestEntry (fun s => "H" ++ s) (fun s => "F" ++ s) none "m"
        ["b", "a"]).includeFiles = ["a", "b"] ∧
    specIncludeFilesFirstAppearance none ["b", "a"] = ["b", "a"] ∧
    (["a", "b"] : List String) ≠ ["b", "a"] := by
  exact ⟨by decide, by decide, by decide⟩

/-- C5 amended: the includeFiles sequence stored by createManifestEntry is
the image, under collapsing the basedir prefix to the placeholder, of a
duplicate-free list that contains exactly the input paths in ascending
(sorted) order — not in order of first appearance. -/
theorem createManifestEntry_includeFiles_sorted (H fileHash : String → String)
    (baseDir : Option String) (manifestHash : String) (includePaths : List String) :
    ∃ s : List String, s.Nodup ∧ List.Sorted pyStrLe s ∧
      (∀ x, x ∈ s ↔ x ∈ includePaths) ∧
      (createManifestEntry H fileHash baseDir manifestHash includePaths).includeFiles
        = s.map (collapseBasedirToPlaceholder baseDir) := by
  refine ⟨pySortedSet includePaths, ?_, ?_, ?_, rfl⟩
  · exact ((List.perm_insertionSort pyStrLe includePaths.dedup).nodup_iff).mpr
      (List.nodup_dedup includePaths)
  · exact List.sorted_insertionSort pyStrLe includePaths.dedup
  · intro x
    show x ∈ List.insertionSort pyStrLe includePaths.dedup ↔ x ∈ includePaths
    rw [List.Perm.mem_iff (List.perm_insertionSort pyStrLe includePaths.dedup),
        List.mem_dedup]

end Clcache

namespace Clcache

/-! ## Claim C6 -/

/-- C6 counterexample: when two entries share an objectHash — which
addEntry permits — a hit on the entry at position 1 makes touchEntry move
the entry at position 0 (the first entry with that hash) instead: the
manifest is returned unchanged and the entry at position 0 is not the hit
entry. -/
theorem touchEntry_duplicate_hash_not_mru :
    touchEntry [dupEntryA, dupEntryB] dupEntryB.objectHash = some [dupEntryA, dupEntryB] ∧
    dupEntryA ≠ dupEntryB := by
  exact ⟨rfl, by decide⟩

/-- Inside touchEntry, the scanned index is the position of the first
entry carrying the given hash. -/
theorem firstIndexWithHash_eq_some (h : String) :
    ∀ (l : List ManifestEntry) (i : Nat) (hi : i < l.length),
      (∀ j (hj : j < i), (l.get ⟨j, hj.trans hi⟩).objectHash ≠ h) →
      (l.get ⟨i, hi⟩).objectHash = h →
      firstIndexWithHash h l = some i := by
  intro l
  induction l with
  | nil => intro i hi; exact absurd hi (Nat.not_lt_zero i)
  | cons e rest ih =>
    intro i hi hfirst hhit
    cases i with
    | zero =>
      simp only [List.get] at hhit
      simp [firstIndexWithHash, hhit]
    | succ n =>
      have hne : e.objectHash ≠ h := by
        have := hfirst 0 (Nat.succ_pos n)
        simpa using this
      have hrec := ih n (Nat.lt_of_succ_lt_succ hi)
        (fun j hj => by
          have := hfirst (j + 1) (Nat.succ_lt_succ hj)
          simpa using this)
        (by simpa using hhit)
      simp [firstIndexWithHash, hne, hrec]

/-- Moving the element at a valid index to the front is a permutation. -/
theorem cons_get_eraseIdx_perm {α : Type} :
    ∀ (l : List α) (i : Nat) (hi : i < l.length),
      (l.get ⟨i, hi⟩ :: l.eraseIdx i).Perm l := by
  intro l
  induction l with
  | nil => intro i hi; exact absurd hi (Nat.not_lt_zero i)
  | cons a t ih =>
    intro i hi
    cases i with
    | zero => simp
    | succ n =>
      have hn : n < t.length := Nat.lt_of_succ_lt_succ hi
      have h1 : (t.get ⟨n, hn⟩ :: a :: t.eraseIdx n).Perm
          (a :: t.get ⟨n, hn⟩ :: t.eraseIdx n) :=
        List.Perm.swap a (t.get ⟨n, hn⟩) (t.eraseIdx n)
      have h2 : (a :: t.get ⟨n, hn⟩ :: t.eraseIdx n).Perm (a :: t) := (ih n hn).cons a
      exact h1.trans h2

/-- C6 amended: after a hit on the entry at position i — provided that
entry is the first in the manifest carrying its objectHash, as is the case
whenever objectHashes are unique — touchEntry yields that entry at
position 0 followed by the remaining entries in their previous relative
order, and the result is a permutation of the original entries (nothing
added or lost). -/
theorem touchEntry_mru (entries : List ManifestEntry) (i : Nat) (hi : i < entries.length)
    (_hpos : 0 < i)
    (hfirst : ∀ j (hj : j < i),
      (entries.get ⟨j, hj.trans hi⟩).objectHash ≠ (entries.get ⟨i, hi⟩).objectHash) :
    touchEntry entries ((entries.get ⟨i, hi⟩).objectHash)
        = some (entries.get ⟨i, hi⟩ :: entries.eraseIdx i) ∧
    (entries.get ⟨i, hi⟩ :: entries.eraseIdx i).Perm entries := by
  refine ⟨?_, cons_get_eraseIdx_perm entries i hi⟩
  have hidx := firstIndexWithHash_eq_some ((entries.get ⟨i, hi⟩).objectHash)
    entries i hi hfirst rfl
  simp only [touchEntry, hidx, Option.getD_some]
  rw [List.get?_eq_get hi]

/-- Concrete manifest entries with distinct hashes for the C6 witness. -/
def mruE0 : ManifestEntry := ⟨["a.h"], "h0", "k0"⟩

/-- Second concrete manifest entry with a hash distinct from `mruE0`. -/
def mruE1 : ManifestEntry := ⟨["b.h"], "h1", "k1"⟩

/-- C6 witness: touching the entry at position 1 of a two-entry manifest
with distinct hashes moves it to position 0 and keeps the other entry. -/
theorem touchEntry_mru_witness :
    ((0 : Nat) < 1 ∧ ∀ j (hj : j < 1),
        (([mruE0, mruE1] : List ManifestEntry).get
            ⟨j, hj.trans (by decide)⟩).objectHash
          ≠ (([mruE0, mruE1] : List ManifestEntry).get ⟨1, by decide⟩).objectHash) ∧
    (touchEntry [mruE0, mruE1] "k1" = some [mruE1, mruE0] ∧
     ([mruE1, mruE0] : List ManifestEntry).Perm [mruE0, mruE1]) := by
  have hfirst : ∀ j (hj : j < 1),
      (([mruE0, mruE1] : List ManifestEntry).get
          ⟨j, hj.trans (by decide)⟩).objectHash
        ≠ (([mruE0, mruE1] : List ManifestEntry).get ⟨1, by decide⟩).objectHash := by
    intro j hj
    have hj0 : j = 0 := by omega
    subst hj0
    show mruE0.objectHash ≠ mruE1.objectHash
    decide
  exact ⟨⟨Nat.one_pos, hfirst⟩,
    touchEntry_mru [mruE0, mruE1] 1 (by decide) Nat.one_pos hfirst⟩

end Clcache

namespace Clcache

/-! ## Claim C7 -/

/-- C7: when the preprocessor invocation exits non-zero,
computeKeyNodirect fails with a CompilerFailedException carrying that exit
code and the preprocessor stderr followed by the "preprocessor failed"
note, and the per-source no-direct invocation — for every continuation
`rest` — returns `(exitCode, that stderr message, "", cleanup = false)`
with the cache store unchanged. -/
theorem computeKeyNodirect_failure (H : String → String) (compilerHash : String)
    (invoke : List String → PpInvokeResult)
    (rest : String → Store → Store × (Int × String × String × Bool))
    (store : Store) (cmdLine : List String)
    (h : (invoke (ppcmd cmdLine)).returnCode ≠ 0) :
    computeKeyNodirect H compilerHash invoke cmdLine
      = Except.error ⟨(invoke (ppcmd cmdLine)).returnCode,
          (invoke (ppcmd cmdLine)).ppStderr ++ "\nclcache: preprocessor failed", ""⟩ ∧
    processSingleSourceNodirect H compilerHash invoke rest store cmdLine
      = (store, ((invoke (ppcmd cmdLine)).returnCode,
          (invoke (ppcmd cmdLine)).ppStderr ++ "\nclcache: preprocessor failed", "",
          false)) := by
  have h1 : computeKeyNodirect H compilerHash invoke cmdLine
      = Except.error ⟨(invoke (ppcmd cmdLine)).returnCode,
          (invoke (ppcmd cmdLine)).ppStderr ++ "\nclcache: preprocessor failed", ""⟩ := by
    simp [computeKeyNodirect, h]
  refine ⟨h1, ?_⟩
  simp [processSingleSourceNodirect, h1, getReturnTuple]

/-- C7 witness: a preprocessor that exits with code 2 and stderr "bad"
surfaces `(2, "bad\nclcache: preprocessor failed", "", false)` and leaves
the store untouched. -/
theorem computeKeyNodirect_failure_witness :
    (((fun _ => ⟨2, "pp", "bad"⟩ : List String → PpInvokeResult)
        (ppcmd ["/c", "a.cpp"])).returnCode ≠ 0) ∧
    (computeKeyNodirect (fun s => s) "ch" (fun _ => ⟨2, "pp", "bad"⟩) ["/c", "a.cpp"]
        = Except.error ⟨2, "bad" ++ "\nclcache: preprocessor failed", ""⟩ ∧
     processSingleSourceNodirect (fun s => s) "ch" (fun _ => ⟨2, "pp", "bad"⟩)
        (fun _ st => (st, (0, "", "", false))) (fun _ => none) ["/c", "a.cpp"]
        = ((fun _ => none : Store),
           (2, "bad" ++ "\nclcache: preprocessor failed", "", false))) := by
  exact ⟨by decide,
    computeKeyNodirect_failure (fun s => s) "ch" (fun _ => ⟨2, "pp", "bad"⟩)
      (fun _ st => (st, (0, "", "", false))) (fun _ => none) ["/c", "a.cpp"] (by decide)⟩

/-! ## Claim C8 -/

/-- Running register calls adds to the miss counter exactly one per plain,
evicted, header-changed or source-changed miss call. -/
theorem applyOps_cacheMisses (ops : List StatOp) : ∀ s : Statistics,
    (applyOps ops s).cacheMisses
      = s.cacheMisses + plainMissCount ops + evictedMissOpCount ops
        + headerMissOpCount ops + sourceMissOpCount ops := by
  induction ops with
  | nil =>
    intro s
    simp [applyOps, plainMissCount, evictedMissOpCount, headerMissOpCount,
      sourceMissOpCount]
  | cons op rest ih =>
    intro s
    have hstep : applyOps (op :: rest) s = applyOps rest (applyOp s op) := rfl
    rw [hstep, ih]
    cases op <;>
      simp [applyOp, plainMissCount, evictedMissOpCount, headerMissOpCount,
        sourceMissOpCount, List.countP_cons] <;> omega

/-- Running register calls adds to the evicted-miss counter exactly one
per evicted-miss call. -/
theorem applyOps_evictedMisses (ops : List StatOp) : ∀ s : Statistics,
    (applyOps ops s).evictedMisses = s.evictedMisses + evictedMissOpCount ops := by
  induction ops with
  | nil => intro s; simp [applyOps, evictedMissOpCount]
  | cons op rest ih =>
    intro s
    have hstep : applyOps (op :: rest) s = applyOps rest (applyOp s op) := rfl
    rw [hstep, ih]
    cases op <;> simp [applyOp, evictedMissOpCount, List.countP_cons] <;> omega

/-- Running register calls adds to the header-changed-miss counter exactly
one per header-changed-miss call. -/
theorem applyOps_headerChangedMisses (ops : List StatOp) : ∀ s : Statistics,
    (applyOps ops s).headerChangedMisses
      = s.headerChangedMisses + headerMissOpCount ops := by
  induction ops with
  | nil => intro s; simp [applyOps, headerMissOpCount]
  | cons op rest ih =>
    intro s
    have hstep : applyOps (op :: rest) s = applyOps rest (applyOp s op) := rfl
    rw [hstep, ih]
    cases op <;> simp [applyOp, headerMissOpCount, List.countP_cons] <;> omega

/-- Running register calls adds to the source-changed-miss counter exactly
one per source-changed-miss call. -/
theorem applyOps_sourceChangedMisses (ops : List StatOp) : ∀ s : Statistics,
    (applyOps ops s).sourceChangedMisses
      = s.sourceChangedMisses + sourceMissOpCount ops := by
  induction ops with
  | nil => intro s; simp [applyOps, sourceMissOpCount]
  | cons op rest ih =>
    intro s
    have hstep : applyOps (op :: rest) s = applyOps rest (applyOp s op) := rfl
    rw [hstep, ih]
    cases op <;> simp [applyOp, sourceMissOpCount, List.countP_cons] <;> omega

/-- C8: in every statistics state reachable by register calls from the
all-zero state, CacheMisses equals EvictedMisses + HeaderChangedMisses +
SourceChangedMisses plus the number of plain registerCacheMiss calls, each
specific miss variant having incremented CacheMisses as well. -/
theorem statistics_miss_conservation (ops : List StatOp) :
    (applyOps ops zeroStatistics).cacheMisses
      = (applyOps ops zeroStatistics).evictedMisses
        + (applyOps ops zeroStatistics).headerChangedMisses
        + (applyOps ops zeroStatistics).sourceChangedMisses
        + plainMissCount ops := by
  rw [applyOps_cacheMisses, applyOps_evictedMisses, applyOps_headerChangedMisses,
    applyOps_sourceChangedMisses]
  simp [zeroStatistics]
  omega

end Clcache

namespace Clcache

/-! ## Claim C9 -/

/-- Taking the last element surviving a filter is the same as searching
the reversed list for the first element passing the predicate. -/
theorem getLast?_filter_eq_find?_reverse {α : Type} (p : α → Bool) (l : List α) :
    (l.filter p).getLast? = l.reverse.find? p := by
  induction l using List.reverseRecOn with
  | nil => simp
  | append_singleton l a ih =>
    rw [List.filter_append, List.reverse_append]
    by_cases h : p a
    · simp [List.filter_cons, h, List.getLast?_concat, List.find?_cons_of_pos _ h]
    · simp only [List.filter_cons, h, Bool.false_eq_true, if_false, List.filter_nil,
        List.append_nil, List.reverse_cons, List.reverse_nil, List.nil_append,
        List.singleton_append]
      rw [List.find?_cons_of_neg _ (by simpa using h)]
      exact ih

/-- C9: jobCount returns the digit value of the last command-line token
fully matching the `/MP` expression, the host CPU count when that token is
a bare `/MP`, and 1 when no token matches; in particular the malformed
`/MPfoo` never matches, so `["/MPfoo"]` yields 1 and in
`["/MP3", "/MPfoo"]` the earlier well-formed switch still decides. -/
theorem jobCount_eq_spec (cpuCount : Nat) (cmdLine : List String) :
    jobCount cpuCount cmdLine = specJobCount cpuCount cmdLine ∧
    jobCount cpuCount ["/MPfoo"] = 1 ∧
    jobCount cpuCount ["/MP3", "/MPfoo"] = 3 := by
  refine ⟨?_, rfl, rfl⟩
  have hj : jobCount cpuCount cmdLine
      = (match (cmdLine.filter isMPSwitch).getLast? with
         | none => 1
         | some s => if s.data.drop 3 ≠ [] then pyIntChars (s.data.drop 3)
                     else cpuCount) := rfl
  have hspec : specJobCount cpuCount cmdLine
      = (match (cmdLine.filter isMPSwitch).getLast? with
         | none => 1
         | some s => if s = "/MP" then cpuCount else pyIntChars (s.data.drop 3)) := by
    unfold specJobCount
    rw [← getLast?_filter_eq_find?_reverse]
  rw [hj, hspec]
  cases hlast : (cmdLine.filter isMPSwitch).getLast? with
  | none => rfl
  | some s =>
    have hmem : s ∈ cmdLine.filter isMPSwitch := List.mem_of_mem_getLast? hlast
    have hmp : isMPSwitch s = true := (List.mem_filter.mp hmem).2
    have hpre : ("/MP".data) <+: s.data :=
      List.isPrefixOf_iff_prefix.mp (Bool.and_elim_left hmp)
    have hsplit : "/MP".data ++ s.data.drop 3 = s.data := by
      have := List.prefix_iff_eq_append.mp hpre
      simpa using this
    have hbare : s = "/MP" ↔ s.data.drop 3 = [] := by
      constructor
      · intro hs
        subst hs
        rfl
      · intro hs
        rw [hs, List.append_nil] at hsplit
        cases s
        exact congrArg String.mk hsplit.symm
    show (if s.data.drop 3 ≠ [] then pyIntChars (s.data.drop 3) else cpuCount)
        = (if s = "/MP" then cpuCount else pyIntChars (s.data.drop 3))
    by_cases hc : s.data.drop 3 = []
    · rw [if_neg (by simp [hc]), if_pos (hbare.mpr hc)]
    · rw [if_pos hc, if_neg (fun hs => hc (hbare.mp hs))]

/-! ## Claim C10 -/

/-- The eviction loop never decreases its removal counter. -/
theorem cleanLoop_fst_ge (maxSize : Int) :
    ∀ (l : List ObjectInfo) (cur : Int) (r : Nat), r ≤ (cleanLoop maxSize l cur r).1 := by
  intro l
  induction l with
  | nil => intro cur r; exact le_refl r
  | cons x rest ih =>
    intro cur r
    show r ≤ (if cur - x.size < maxSize then (r + 1, cur - x.size)
              else cleanLoop maxSize rest (cur - x.size) (r + 1)).1
    by_cases h : cur - x.size < maxSize
    · simp [h]
    · simp only [h, if_false]
      exact le_trans (Nat.le_succ r) (ih (cur - x.size) (r + 1))

/-- On a non-empty list the eviction loop removes at least one more
entry: the removal happens before the budget test. -/
theorem cleanLoop_fst_succ_le (maxSize : Int) (x : ObjectInfo) (l : List ObjectInfo)
    (cur : Int) (r : Nat) : r + 1 ≤ (cleanLoop maxSize (x :: l) cur r).1 := by
  show r + 1 ≤ (if cur - x.size < maxSize then (r + 1, cur - x.size)
                else cleanLoop maxSize l (cur - x.size) (r + 1)).1
  by_cases h : cur - x.size < maxSize
  · simp [h]
  · simp only [h, if_false]
    exact cleanLoop_fst_ge maxSize l (cur - x.size) (r + 1)

/-- C10: whenever the enumerated object store is non-empty, clean removes
at least one entry — the remaining count is strictly below the initial
count — regardless of the budget, because the loop deletes the
oldest-access-time entry before checking the size budget. -/
theorem clean_removes_at_least_one (maxSize : Int) (objectInfos : List ObjectInfo)
    (h : objectInfos ≠ []) :
    (clean maxSize objectInfos).1 < objectInfos.length := by
  have hlen : (List.insertionSort (fun a b => a.atime ≤ b.atime) objectInfos).length
      = objectInfos.length :=
    (List.perm_insertionSort (fun a b => a.atime ≤ b.atime) objectInfos).length_eq
  have hpos : 0 < objectInfos.length := List.length_pos.mpr h
  have hne : List.insertionSort (fun a b => a.atime ≤ b.atime) objectInfos ≠ [] := by
    intro h0
    rw [h0] at hlen
    simp at hlen
    omega
  obtain ⟨x, l, hx⟩ := List.exists_cons_of_ne_nil hne
  have hone : 1 ≤ (cleanLoop maxSize
      (List.insertionSort (fun a b => a.atime ≤ b.atime) objectInfos)
      (((List.insertionSort (fun a b => a.atime ≤ b.atime) objectInfos).map
        (fun y => y.size)).sum) 0).1 := by
    rw [hx]
    exact cleanLoop_fst_succ_le maxSize x l _ 0
  show objectInfos.length - (cleanLoop maxSize
      (List.insertionSort (fun a b => a.atime ≤ b.atime) objectInfos)
      (((List.insertionSort (fun a b => a.atime ≤ b.atime) objectInfos).map
        (fun y => y.size)).sum) 0).1 < objectInfos.length
  exact Nat.sub_lt hpos hone

/-- C10 witness: a store holding one 5-byte object under a huge budget
still evicts it. -/
theorem clean_removes_at_least_one_witness :
    ([⟨0, 5, "k"⟩] : List ObjectInfo) ≠ [] ∧
    (clean 1000 [⟨0, 5, "k"⟩]).1 < ([⟨0, 5, "k"⟩] : List ObjectInfo).length :=
  ⟨by decide, clean_removes_at_least_one 1000 [⟨0, 5, "k"⟩] (by decide)⟩

end Clcache
